import Mathlib

/-!
# Verification of the population-data repository

Shallow embedding of the data-handling layer of the `population-data`
repository (a municipality population / real-estate price visualizer) and
proofs of the specification's claims about it.

The frontend sources under `src/frontend` are embedded directly:
* `combinedData` — the year join of `CombinedChart.tsx` (a JavaScript
  `Map<number, …>` keyed by year, population inserted first, real-estate
  fields merged in second, then `Array.from(values()).sort by year`);
* `filteredMunicipalities` — the search filter of `MunicipalitySearch.tsx`;
* `handleSliderChange` — the closest-year reduction of `TimeSlider.tsx`;
* `popChange` / `chartChange` — the unguarded first/last accesses of
  `CombinedChart.tsx` and `PopulationChart.tsx`.

The backend core (ResponseCache, CensusClient, RealEstateClient,
RealEstateAggregator) is not present under `src/`; those components are
modelled from the specification, and each such definition says so in its
doc comment.

TypeScript strings are embedded as `List Char`; JavaScript numbers holding
years, populations and prices are embedded as `Int` (or `Nat` where the
value is a count); JavaScript `undefined` / `null` fields become `Option`.
-/

namespace PopulationData

/-- `YearlyPopulation` from `frontend/src/types/population.ts`:
one year of a municipality's population time series. -/
structure YearlyPopulation where
  year : Int
  population : Int
  deriving Repr, DecidableEq

/-- `RealEstateYearlyData` from `frontend/src/types/realestate.ts`:
one year of a municipality's real-estate time series. -/
structure RealEstateYearlyData where
  year : Int
  transaction_count : Int
  avg_unit_price : Int
  min_unit_price : Int
  max_unit_price : Int
  deriving Repr, DecidableEq

/-- The record type of the object literals stored in `dataMap` inside
`combinedData` (`CombinedChart.tsx`): all three data fields are optional
(`population?`, `avg_unit_price?`, `transaction_count?`). -/
structure CombinedRec where
  year : Int
  population : Option Int := none
  avg_unit_price : Option Int := none
  transaction_count : Option Int := none
  deriving Repr, DecidableEq

/-- An insertion-ordered map from year to record, embedding the JavaScript
`Map<number, …>` used by `combinedData`. -/
abbrev JsMap := List (Int × CombinedRec)

/-- `Map.prototype.set`: replace in place if the key is present (keeping its
insertion position), otherwise append at the end. -/
def mapSet (m : JsMap) (k : Int) (v : CombinedRec) : JsMap :=
  match m with
  | [] => [(k, v)]
  | (k', v') :: rest =>
    if k' = k then (k, v) :: rest else (k', v') :: mapSet rest k v

/-- `Map.prototype.get`: the value stored at the key, if any. -/
def mapGet (m : JsMap) (k : Int) : Option CombinedRec :=
  match m with
  | [] => none
  | (k', v') :: rest => if k' = k then some v' else mapGet rest k

/-- The population pass of `combinedData`:
`dataMap.set(d.year, { year: d.year, population: d.population })`. -/
def addPop (m : JsMap) (d : YearlyPopulation) : JsMap :=
  mapSet m d.year { year := d.year, population := some d.population }

/-- The real-estate pass of `combinedData`:
`existing = dataMap.get(d.year) || { year: d.year }` then
`dataMap.set(d.year, { ...existing, avg_unit_price, transaction_count })`. -/
def addRe (m : JsMap) (d : RealEstateYearlyData) : JsMap :=
  let existing := (mapGet m d.year).getD { year := d.year }
  mapSet m d.year
    { existing with
      avg_unit_price := some d.avg_unit_price
      transaction_count := some d.transaction_count }

/-- The comparator of `combinedData`'s final `.sort((a, b) => a.year - b.year)`. -/
def yearLE (a b : CombinedRec) : Prop := a.year ≤ b.year

instance : DecidableRel yearLE := fun a b => Int.decLe a.year b.year

instance : IsTotal CombinedRec yearLE := ⟨fun a b => Int.le_total a.year b.year⟩

instance : IsTrans CombinedRec yearLE := ⟨fun _ _ _ h h' => le_trans h h'⟩

/-- The `dataMap` built inside `combinedData` (`CombinedChart.tsx` lines
36–61): the population pass runs on the empty map, then the real-estate
pass runs only when `realEstateData` is non-null. -/
def joinMap (populationData : List YearlyPopulation)
    (realEstateData : Option (List RealEstateYearlyData)) : JsMap :=
  match realEstateData with
  | none => populationData.foldl addPop []
  | some rl => rl.foldl addRe (populationData.foldl addPop [])

/-- `combinedData` from `CombinedChart.tsx` lines 35–64: insert all
population years, merge in the real-estate years when `realEstateData` is
non-null, then list the map's values sorted by year ascending
(`Array.from(dataMap.values()).sort((a, b) => a.year - b.year)`). -/
def combinedData (populationData : List YearlyPopulation)
    (realEstateData : Option (List RealEstateYearlyData)) : List CombinedRec :=
  ((joinMap populationData realEstateData).map Prod.snd).insertionSort yearLE

/-- The years present in an optional real-estate series (empty when null). -/
def reYears (realEstateData : Option (List RealEstateYearlyData)) : List Int :=
  (realEstateData.getD []).map RealEstateYearlyData.year

example :
    combinedData [⟨2015, 100000⟩, ⟨2020, 95000⟩]
      (some [⟨2015, 10, 500000, 500000, 500000⟩]) =
    [{ year := 2015, population := some 100000,
       avg_unit_price := some 500000, transaction_count := some 10 },
     { year := 2020, population := some 95000 }] := by decide

/-! ## Map lemmas -/

/-- The keys of the embedded JavaScript map, in insertion order. -/
def keys (m : JsMap) : List Int := m.map Prod.fst

@[simp] theorem keys_nil : keys [] = [] := rfl

@[simp] theorem keys_cons (p : Int × CombinedRec) (m : JsMap) :
    keys (p :: m) = p.1 :: keys m := rfl

@[simp] theorem mapSet_nil (k : Int) (v : CombinedRec) :
    mapSet [] k v = [(k, v)] := rfl

theorem mapSet_cons_eq {pk k : Int} (pv v : CombinedRec) (rest : JsMap)
    (h : pk = k) : mapSet ((pk, pv) :: rest) k v = (k, v) :: rest := by
  simp [mapSet, h]

theorem mapSet_cons_ne {pk k : Int} (pv v : CombinedRec) (rest : JsMap)
    (h : ¬pk = k) :
    mapSet ((pk, pv) :: rest) k v = (pk, pv) :: mapSet rest k v := by
  simp [mapSet, h]

@[simp] theorem mapGet_nil (k : Int) : mapGet [] k = none := rfl

theorem mapGet_cons_eq {pk k : Int} (pv : CombinedRec) (rest : JsMap)
    (h : pk = k) : mapGet ((pk, pv) :: rest) k = some pv := by
  simp [mapGet, h]

theorem mapGet_cons_ne {pk k : Int} (pv : CombinedRec) (rest : JsMap)
    (h : ¬pk = k) : mapGet ((pk, pv) :: rest) k = mapGet rest k := by
  simp [mapGet, h]

theorem mem_keys_mapSet (m : JsMap) (k : Int) (v : CombinedRec) (k' : Int) :
    k' ∈ keys (mapSet m k v) ↔ k' ∈ keys m ∨ k' = k := by
  induction m with
  | nil => simp
  | cons p rest ih =>
    obtain ⟨pk, pv⟩ := p
    by_cases h : pk = k
    · subst h
      rw [mapSet_cons_eq pv v rest rfl]
      simp only [keys_cons, List.mem_cons]
      tauto
    · rw [mapSet_cons_ne pv v rest h]
      simp only [keys_cons, List.mem_cons, ih]
      tauto

theorem nodup_keys_mapSet (m : JsMap) (k : Int) (v : CombinedRec)
    (hnd : (keys m).Nodup) : (keys (mapSet m k v)).Nodup := by
  induction m with
  | nil => simp
  | cons p rest ih =>
    obtain ⟨pk, pv⟩ := p
    simp only [keys_cons, List.nodup_cons] at hnd
    by_cases h : pk = k
    · subst h
      rw [mapSet_cons_eq pv v rest rfl]
      simp only [keys_cons, List.nodup_cons]
      exact hnd
    · rw [mapSet_cons_ne pv v rest h]
      simp only [keys_cons, List.nodup_cons]
      refine ⟨?_, ih hnd.2⟩
      rw [mem_keys_mapSet]
      push_neg
      exact ⟨hnd.1, h⟩

theorem mem_mapSet_of_nodup {m : JsMap} {k : Int} {v : CombinedRec}
    {p : Int × CombinedRec} (hnd : (keys m).Nodup) (hp : p ∈ mapSet m k v) :
    p = (k, v) ∨ (p ∈ m ∧ p.1 ≠ k) := by
  induction m with
  | nil =>
    simp only [mapSet_nil, List.mem_singleton] at hp
    exact Or.inl hp
  | cons q rest ih =>
    obtain ⟨qk, qv⟩ := q
    simp only [keys_cons, List.nodup_cons] at hnd
    by_cases h : qk = k
    · subst h
      rw [mapSet_cons_eq qv v rest rfl] at hp
      rcases List.mem_cons.mp hp with hp | hp
      · exact Or.inl hp
      · refine Or.inr ⟨List.mem_cons_of_mem _ hp, ?_⟩
        intro hk
        exact hnd.1 (hk ▸ List.mem_map_of_mem Prod.fst hp)
    · rw [mapSet_cons_ne qv v rest h] at hp
      rcases List.mem_cons.mp hp with rfl | hp
      · exact Or.inr ⟨List.mem_cons_self _ _, h⟩
      · rcases ih hnd.2 hp with h' | ⟨h1, h2⟩
        · exact Or.inl h'
        · exact Or.inr ⟨List.mem_cons_of_mem _ h1, h2⟩

theorem mapGet_eq_none_iff (m : JsMap) (k : Int) :
    mapGet m k = none ↔ k ∉ keys m := by
  induction m with
  | nil => simp
  | cons p rest ih =>
    obtain ⟨pk, pv⟩ := p
    by_cases h : pk = k
    · subst h
      rw [mapGet_cons_eq pv rest rfl]
      simp
    · rw [mapGet_cons_ne pv rest h]
      simp only [keys_cons, List.mem_cons, ih]
      constructor
      · intro hn hmem
        rcases hmem with hmem | hmem
        · exact h hmem.symm
        · exact hn hmem
      · intro hn hmem
        exact hn (Or.inr hmem)

theorem mem_of_mapGet_eq_some {m : JsMap} {k : Int} {v : CombinedRec}
    (h : mapGet m k = some v) : (k, v) ∈ m := by
  induction m with
  | nil => simp at h
  | cons p rest ih =>
    obtain ⟨pk, pv⟩ := p
    by_cases hk : pk = k
    · subst hk
      rw [mapGet_cons_eq pv rest rfl] at h
      cases h
      exact List.mem_cons_self _ _
    · rw [mapGet_cons_ne pv rest hk] at h
      exact List.mem_cons_of_mem _ (ih h)

/-! ## Join invariants -/

/-- Invariant of `dataMap` after the population pass has processed exactly
the years in `ys`: keys are the processed population years without
duplicates, and every stored record carries its key as `year`, a present
`population`, and absent real-estate fields. -/
def PopInv (ys : List Int) (m : JsMap) : Prop :=
  (keys m).Nodup ∧ (∀ k, k ∈ keys m ↔ k ∈ ys) ∧
    ∀ p ∈ m, p.2.year = p.1 ∧ p.2.population.isSome = true ∧
      p.2.avg_unit_price = none ∧ p.2.transaction_count = none

/-- Invariant of `dataMap` once the real-estate pass has processed exactly
the years in `rys`, the population pass having contributed the years of
`pys`: keys are the union, and each record's optional fields are present
exactly for the side(s) whose input contains its year. -/
def JoinInv (pys rys : List Int) (m : JsMap) : Prop :=
  (keys m).Nodup ∧ (∀ k, k ∈ keys m ↔ k ∈ pys ∨ k ∈ rys) ∧
    ∀ p ∈ m, p.2.year = p.1 ∧ (p.2.population.isSome = true ↔ p.1 ∈ pys) ∧
      (p.2.avg_unit_price.isSome = true ↔ p.1 ∈ rys) ∧
      (p.2.transaction_count.isSome = true ↔ p.1 ∈ rys)

theorem popInv_congrYears {ys ys' : List Int} {m : JsMap} (h : PopInv ys m)
    (hys : ∀ k, k ∈ ys ↔ k ∈ ys') : PopInv ys' m :=
  ⟨h.1, fun k => (h.2.1 k).trans (hys k), h.2.2⟩

theorem joinInv_congrYears {pys rys rys' : List Int} {m : JsMap}
    (h : JoinInv pys rys m) (hys : ∀ k, k ∈ rys ↔ k ∈ rys') :
    JoinInv pys rys' m := by
  refine ⟨h.1, fun k => (h.2.1 k).trans (by rw [hys k]), fun p hp => ?_⟩
  obtain ⟨h1, h2, h3, h4⟩ := h.2.2 p hp
  exact ⟨h1, h2, h3.trans (hys p.1), h4.trans (hys p.1)⟩

theorem popInv_addPop {ys : List Int} {m : JsMap} (h : PopInv ys m)
    (d : YearlyPopulation) : PopInv (d.year :: ys) (addPop m d) := by
  obtain ⟨hnd, hkeys, hent⟩ := h
  refine ⟨nodup_keys_mapSet _ _ _ hnd, ?_, ?_⟩
  · intro k
    simp only [addPop]
    rw [mem_keys_mapSet, hkeys, List.mem_cons]
    tauto
  · intro p hp
    rcases mem_mapSet_of_nodup hnd hp with rfl | ⟨hpm, _⟩
    · exact ⟨rfl, rfl, rfl, rfl⟩
    · exact hent p hpm

theorem popFold_inv (pop : List YearlyPopulation) :
    ∀ (ys : List Int) (m : JsMap), PopInv ys m →
      PopInv (pop.map YearlyPopulation.year ++ ys) (pop.foldl addPop m) := by
  induction pop with
  | nil => intro ys m h; simpa using h
  | cons d rest ih =>
    intro ys m h
    have h' := ih (d.year :: ys) (addPop m d) (popInv_addPop h d)
    refine popInv_congrYears h' fun k => ?_
    simp only [List.map_cons, List.cons_append, List.mem_cons, List.mem_append]
    tauto

theorem joinInv_of_popInv {ys : List Int} {m : JsMap} (h : PopInv ys m) :
    JoinInv ys [] m := by
  obtain ⟨hnd, hkeys, hent⟩ := h
  refine ⟨hnd, fun k => by simpa using hkeys k, fun p hp => ?_⟩
  obtain ⟨h1, h2, h3, h4⟩ := hent p hp
  refine ⟨h1, ?_, by simp [h3], by simp [h4]⟩
  have : p.1 ∈ keys m := List.mem_map_of_mem Prod.fst hp
  simp [h2, (hkeys p.1).mp this]

theorem joinInv_addRe {pys rys : List Int} {m : JsMap}
    (h : JoinInv pys rys m) (d : RealEstateYearlyData) :
    JoinInv pys (d.year :: rys) (addRe m d) := by
  obtain ⟨hnd, hkeys, hent⟩ := h
  refine ⟨nodup_keys_mapSet _ _ _ hnd, ?_, ?_⟩
  · intro k
    simp only [addRe]
    rw [mem_keys_mapSet, hkeys, List.mem_cons]
    tauto
  · intro p hp
    rcases mem_mapSet_of_nodup hnd hp with rfl | ⟨hpm, hpne⟩
    · cases hg : mapGet m d.year with
      | none =>
        have hnotin : d.year ∉ keys m := (mapGet_eq_none_iff m d.year).mp hg
        have hnp : d.year ∉ pys := fun hc => hnotin ((hkeys d.year).mpr (Or.inl hc))
        refine ⟨?_, ?_, ?_, ?_⟩ <;> simp [hg, hnp]
      | some ex =>
        have hexm : (d.year, ex) ∈ m := mem_of_mapGet_eq_some hg
        obtain ⟨he1, he2, _, _⟩ := hent _ hexm
        refine ⟨?_, ?_, ?_, ?_⟩
        · simpa [hg] using he1
        · simpa [hg] using he2
        · simp
        · simp
    · obtain ⟨h1, h2, h3, h4⟩ := hent p hpm
      refine ⟨h1, h2, ?_, ?_⟩
      · rw [h3, List.mem_cons]
        constructor
        · exact Or.inr
        · rintro (hc | hc)
          · exact absurd hc hpne
          · exact hc
      · rw [h4, List.mem_cons]
        constructor
        · exact Or.inr
        · rintro (hc | hc)
          · exact absurd hc hpne
          · exact hc

theorem reFold_inv (rl : List RealEstateYearlyData) :
    ∀ (pys rys : List Int) (m : JsMap), JoinInv pys rys m →
      JoinInv pys (rl.map RealEstateYearlyData.year ++ rys) (rl.foldl addRe m) := by
  induction rl with
  | nil => intro pys rys m h; simpa using h
  | cons d rest ih =>
    intro pys rys m h
    have h' := ih pys (d.year :: rys) (addRe m d) (joinInv_addRe h d)
    refine joinInv_congrYears h' fun k => ?_
    simp only [List.map_cons, List.cons_append, List.mem_cons, List.mem_append]
    tauto

/-- The map built by `combinedData` satisfies the join invariant for the
population years and the (possibly null) real-estate years. -/
theorem joinMap_inv (pop : List YearlyPopulation)
    (re : Option (List RealEstateYearlyData)) :
    JoinInv (pop.map YearlyPopulation.year) (reYears re) (joinMap pop re) := by
  have hpop : PopInv (pop.map YearlyPopulation.year) (pop.foldl addPop []) := by
    have h0 : PopInv [] [] := ⟨List.nodup_nil, by simp, by simp⟩
    have := popFold_inv pop [] [] h0
    exact popInv_congrYears this (by simp)
  cases re with
  | none => exact joinInv_of_popInv hpop
  | some rl =>
    have h := reFold_inv rl _ [] _ (joinInv_of_popInv hpop)
    exact joinInv_congrYears h (by simp [reYears])

theorem combinedData_perm_values (pop : List YearlyPopulation)
    (re : Option (List RealEstateYearlyData)) :
    (combinedData pop re).Perm ((joinMap pop re).map Prod.snd) :=
  List.perm_insertionSort yearLE _

theorem combinedData_years_perm_keys (pop : List YearlyPopulation)
    (re : Option (List RealEstateYearlyData)) :
    ((combinedData pop re).map CombinedRec.year).Perm (keys (joinMap pop re)) := by
  refine ((combinedData_perm_values pop re).map CombinedRec.year).trans ?_
  rw [List.map_map]
  have hinv := joinMap_inv pop re
  have hcong : ∀ p ∈ joinMap pop re, (CombinedRec.year ∘ Prod.snd) p = Prod.fst p :=
    fun p hp => (hinv.2.2 p hp).1
  rw [List.map_congr_left hcong]
  exact List.Perm.refl _

/-- C1: for every population series and every real-estate series, the
joined output of `combinedData` contains exactly one record per year in
the union of the years present in either input (count 1 on union years,
count 0 elsewhere), and the output is sorted by year strictly ascending.
The inputs are universally quantified, so this holds regardless of the
order in which either input's records arrive. -/
theorem combinedData_join_contract (pop : List YearlyPopulation)
    (re : Option (List RealEstateYearlyData)) :
    (∀ y : Int, ((combinedData pop re).map CombinedRec.year).count y =
      (if y ∈ pop.map YearlyPopulation.year ∨ y ∈ reYears re then 1 else 0)) ∧
    ((combinedData pop re).map CombinedRec.year).Pairwise (· < ·) := by
  have hinv := joinMap_inv pop re
  have hyp := combinedData_years_perm_keys pop re
  constructor
  · intro y
    rw [hyp.count_eq]
    by_cases h : y ∈ pop.map YearlyPopulation.year ∨ y ∈ reYears re
    · rw [if_pos h]
      exact List.count_eq_one_of_mem hinv.1 ((hinv.2.1 y).mpr h)
    · rw [if_neg h]
      exact List.count_eq_zero.mpr fun hc => h ((hinv.2.1 y).mp hc)
  · have hsorted : List.Sorted yearLE (combinedData pop re) :=
      List.sorted_insertionSort yearLE _
    have hle : ((combinedData pop re).map CombinedRec.year).Pairwise (· ≤ ·) :=
      List.pairwise_map.mpr hsorted
    have hnd : ((combinedData pop re).map CombinedRec.year).Nodup :=
      hyp.symm.nodup hinv.1
    exact (hle.and hnd).imp fun h => lt_of_le_of_ne h.1 h.2

/-- C2: a year present in only one input yields a joined record in which
the other side's fields are absent (`none`), not zero: a population-only
year has `avg_unit_price` and `transaction_count` absent, and a
real-estate-only year has `population` absent. -/
theorem combinedData_one_sided_year (pop : List YearlyPopulation)
    (re : Option (List RealEstateYearlyData)) (r : CombinedRec)
    (hr : r ∈ combinedData pop re) :
    (r.year ∈ pop.map YearlyPopulation.year → r.year ∉ reYears re →
      r.population.isSome = true ∧ r.avg_unit_price = none ∧
        r.transaction_count = none) ∧
    (r.year ∈ reYears re → r.year ∉ pop.map YearlyPopulation.year →
      r.population = none ∧ r.avg_unit_price.isSome = true ∧
        r.transaction_count.isSome = true) := by
  have hinv := joinMap_inv pop re
  have hmem : r ∈ (joinMap pop re).map Prod.snd :=
    (combinedData_perm_values pop re).mem_iff.mp hr
  obtain ⟨p, hp, hpr⟩ := List.mem_map.mp hmem
  obtain ⟨h1, h2, h3, h4⟩ := hinv.2.2 p hp
  subst hpr
  rw [h1]
  constructor
  · intro hpin hnotre
    refine ⟨h2.mpr hpin, ?_, ?_⟩
    · exact Option.not_isSome_iff_eq_none.mp fun hs => hnotre (h3.mp hs)
    · exact Option.not_isSome_iff_eq_none.mp fun hs => hnotre (h4.mp hs)
  · intro hrin hnotpop
    refine ⟨?_, h3.mpr hrin, h4.mpr hrin⟩
    exact Option.not_isSome_iff_eq_none.mp fun hs => hnotpop (h2.mp hs)

/-- Witness for C2 at a concrete input: in the join of population years
{2015, 2020} with real-estate year {2015}, the record of the
population-only year 2020 has both real-estate fields absent. -/
theorem combinedData_one_sided_year_witness :
    ({ year := 2020, population := some 95000 } :
        CombinedRec).population.isSome = true ∧
    ({ year := 2020, population := some 95000 } :
        CombinedRec).avg_unit_price = none ∧
    ({ year := 2020, population := some 95000 } :
        CombinedRec).transaction_count = none :=
  (combinedData_one_sided_year [⟨2015, 100000⟩, ⟨2020, 95000⟩]
      (some [⟨2015, 10, 500000, 500000, 500000⟩])
      { year := 2020, population := some 95000 }
      (by decide)).1 (by decide) (by decide)

/-- C4: on the concrete inputs — population `[(2015, 100000),
(2020, 95000)]` and real estate `[(2015, count 10, avg 500000)]` — the
join returns exactly the two merged records, 2015 then 2020, with the
real-estate fields absent in 2020. -/
theorem combinedData_scenario :
    combinedData [⟨2015, 100000⟩, ⟨2020, 95000⟩]
      (some [⟨2015, 10, 500000, 500000, 500000⟩]) =
    [{ year := 2015, population := some 100000,
       avg_unit_price := some 500000, transaction_count := some 10 },
     { year := 2020, population := some 95000 }] := by decide

/-! ## Municipality search (`MunicipalitySearch.tsx`) -/

/-- `MunicipalityListItem` from `frontend/src/types/population.ts`; its
string fields are embedded as `List Char`. -/
structure MunicipalityListItem where
  code : List Char
  prefecture : List Char
  municipality : List Char
  deriving Repr, DecidableEq

/-- `String.prototype.toLowerCase`, character by character. -/
def lowerStr (s : List Char) : List Char := s.map Char.toLower

/-- Whether `needle` is an initial segment of `hay`. -/
def startsWithChars : List Char → List Char → Bool
  | [], _ => true
  | _ :: _, [] => false
  | a :: as, b :: bs => a == b && startsWithChars as bs

/-- `hay.includes(needle)`: `needle` occurs contiguously in `hay`. -/
def includesStr (needle : List Char) : List Char → Bool
  | [] => startsWithChars needle []
  | c :: t => startsWithChars needle (c :: t) || includesStr needle t

/-- The predicate of the `filter` callback in `filteredMunicipalities`
(`MunicipalitySearch.tsx` lines 21–28): the lowercased search text occurs
in the lowercased municipality or prefecture name, or the raw search text
occurs in the code. -/
def matchesSearch (searchText : List Char) (m : MunicipalityListItem) : Bool :=
  let lower := lowerStr searchText
  includesStr lower (lowerStr m.municipality) ||
    includesStr lower (lowerStr m.prefecture) ||
      includesStr searchText m.code

/-- `filteredMunicipalities` from `MunicipalitySearch.tsx` lines 18–30:
with empty search text the first 50 municipalities, otherwise the first 50
matches of the search predicate. -/
def filteredMunicipalities (municipalities : List MunicipalityListItem)
    (searchText : List Char) : List MunicipalityListItem :=
  if searchText.isEmpty then municipalities.take 50
  else (municipalities.filter (matchesSearch searchText)).take 50

/-- C8: the search result always has at most 50 entries, and when the
search text is non-empty every returned entry matches it — the lowercased
text occurs in the lowercased municipality or prefecture name, or the raw
text occurs in the code. -/
theorem filteredMunicipalities_spec (ms : List MunicipalityListItem)
    (txt : List Char) :
    (filteredMunicipalities ms txt).length ≤ 50 ∧
    (txt ≠ [] → ∀ m ∈ filteredMunicipalities ms txt,
      includesStr (lowerStr txt) (lowerStr m.municipality) = true ∨
      includesStr (lowerStr txt) (lowerStr m.prefecture) = true ∨
      includesStr txt m.code = true) := by
  constructor
  · unfold filteredMunicipalities
    by_cases h : txt.isEmpty
    · rw [if_pos h]; exact List.length_take_le 50 ms
    · rw [if_neg h]; exact List.length_take_le 50 _
  · intro hne m hm
    have hne' : ¬txt.isEmpty := by
      cases txt with
      | nil => exact absurd rfl hne
      | cons c t => simp
    rw [filteredMunicipalities, if_neg hne'] at hm
    have hmf : m ∈ ms.filter (matchesSearch txt) := List.mem_of_mem_take hm
    have := List.of_mem_filter hmf
    have h' : (includesStr (lowerStr txt) (lowerStr m.municipality) = true ∨
        includesStr (lowerStr txt) (lowerStr m.prefecture) = true) ∨
        includesStr txt m.code = true := by
      simpa [matchesSearch, Bool.or_eq_true] using this
    tauto

/-- Witness for C8 at a concrete input: searching `"a"` in a one-element
list returns an entry in which the lowercased text occurs. -/
theorem filteredMunicipalities_spec_witness :
    includesStr (lowerStr [Char.ofNat 97])
        (lowerStr [Char.ofNat 97, Char.ofNat 98]) = true ∨
      includesStr (lowerStr [Char.ofNat 97])
        (lowerStr [Char.ofNat 80]) = true ∨
      includesStr [Char.ofNat 97] [Char.ofNat 48, Char.ofNat 49] = true :=
  (filteredMunicipalities_spec
      [⟨[Char.ofNat 48, Char.ofNat 49], [Char.ofNat 80],
        [Char.ofNat 97, Char.ofNat 98]⟩] [Char.ofNat 97]).2
    (by decide)
    ⟨[Char.ofNat 48, Char.ofNat 49], [Char.ofNat 80],
      [Char.ofNat 97, Char.ofNat 98]⟩ (by decide)

/-! ## Time slider (`TimeSlider.tsx`) -/

/-- The callback of the `reduce` in `handleSliderChange`
(`TimeSlider.tsx` lines 24–26):
`Math.abs(curr - value) < Math.abs(prev - value) ? curr : prev`. -/
def closerStep (value prev curr : Int) : Int :=
  if (curr - value).natAbs < (prev - value).natAbs then curr else prev

/-- `handleSliderChange` from `TimeSlider.tsx` lines 21–28: the year
passed to `onYearChange`, i.e. the `reduce` of `closerStep` over `years`
seeded with its first element (`reduce` with no initial value). The
component returns early when `years` is empty, so that case is `none`. -/
def handleSliderChange (years : List Int) (value : Int) : Option Int :=
  match years with
  | [] => none
  | y0 :: rest => some (rest.foldl (closerStep value) y0)

theorem closerStep_foldl_split (value : Int) :
    ∀ (t : List Int) (a : Int), ∃ l₁ l₂,
      a :: t = l₁ ++ (t.foldl (closerStep value) a) :: l₂ ∧
      (∀ y ∈ l₁,
        ((t.foldl (closerStep value) a) - value).natAbs < (y - value).natAbs) ∧
      (∀ y ∈ l₂,
        ((t.foldl (closerStep value) a) - value).natAbs ≤ (y - value).natAbs) := by
  intro t
  induction t with
  | nil =>
    intro a
    exact ⟨[], [], rfl, by simp, by simp⟩
  | cons c t' ih =>
    intro a
    have hfold : (c :: t').foldl (closerStep value) a =
        t'.foldl (closerStep value) (closerStep value a c) := rfl
    obtain ⟨l₁', l₂', heq, h1', h2'⟩ := ih (closerStep value a c)
    have hrle : ∀ z ∈ closerStep value a c :: t',
        ((t'.foldl (closerStep value) (closerStep value a c)) - value).natAbs ≤
          (z - value).natAbs := by
      intro z hz
      rw [heq] at hz
      rcases List.mem_append.mp hz with hz | hz
      · exact le_of_lt (h1' z hz)
      · rcases List.mem_cons.mp hz with hz | hz
        · rw [hz]
        · exact h2' z hz
    by_cases hc : (c - value).natAbs < (a - value).natAbs
    · have hac : closerStep value a c = c := if_pos hc
      have hrc : ((t'.foldl (closerStep value) (closerStep value a c)) -
          value).natAbs ≤ (c - value).natAbs := by
        have h := hrle (closerStep value a c) (List.mem_cons_self _ _)
        calc ((t'.foldl (closerStep value) (closerStep value a c)) -
              value).natAbs
            ≤ ((closerStep value a c) - value).natAbs := h
          _ = (c - value).natAbs := by rw [hac]
      refine ⟨a :: l₁', l₂', ?_, ?_, ?_⟩
      · rw [hfold, List.cons_append, ← heq, hac]
      · intro z hz
        rw [hfold]
        rcases List.mem_cons.mp hz with hz | hz
        · rw [hz]
          exact lt_of_le_of_lt hrc hc
        · exact h1' z hz
      · intro z hz
        rw [hfold]
        exact h2' z hz
    · have hac : closerStep value a c = a := if_neg hc
      have hle : (a - value).natAbs ≤ (c - value).natAbs := Nat.le_of_not_lt hc
      rw [hac] at heq h1' h2' hfold
      cases l₁' with
      | nil =>
        rw [List.nil_append] at heq
        injection heq with hra hl₂
        refine ⟨[], c :: t', ?_, by simp, ?_⟩
        · rw [hfold, List.nil_append, ← hra]
        · intro z hz
          rw [hfold]
          rcases List.mem_cons.mp hz with hz | hz
          · rw [hz, ← hra]
            exact hle
          · exact h2' z (hl₂ ▸ hz)
      | cons b l₁'' =>
        rw [List.cons_append] at heq
        injection heq with hab ht'
        subst hab
        have hrb : ((t'.foldl (closerStep value) a) - value).natAbs <
            (a - value).natAbs := h1' a (List.mem_cons_self _ _)
        refine ⟨a :: c :: l₁'', l₂', ?_, ?_, ?_⟩
        · rw [hfold, List.cons_append, List.cons_append, ← ht']
        · intro z hz
          rw [hfold]
          rcases List.mem_cons.mp hz with hz | hz
          · rw [hz]
            exact hrb
          · rcases List.mem_cons.mp hz with hz | hz
            · rw [hz]
              exact lt_of_lt_of_le hrb hle
            · exact h1' z (List.mem_cons_of_mem _ hz)
        · intro z hz
          rw [hfold]
          exact h2' z hz

/-- C9: for a non-empty years array, `handleSliderChange` produces an
element of the array whose distance to the slider value is minimal, and
every element strictly before it in the array is strictly farther (so on
ties the earliest minimizer wins); it never produces a year outside the
array. -/
theorem handleSliderChange_closest (years : List Int) (value r : Int)
    (h : handleSliderChange years value = some r) :
    r ∈ years ∧
    (∀ y ∈ years, (r - value).natAbs ≤ (y - value).natAbs) ∧
    ∃ l₁ l₂, years = l₁ ++ r :: l₂ ∧
      ∀ y ∈ l₁, (r - value).natAbs < (y - value).natAbs := by
  cases years with
  | nil => simp [handleSliderChange] at h
  | cons y0 rest =>
    simp only [handleSliderChange, Option.some.injEq] at h
    obtain ⟨l₁, l₂, heq, h1, h2⟩ := closerStep_foldl_split value rest y0
    rw [h] at heq h1 h2
    refine ⟨?_, ?_, l₁, l₂, heq, h1⟩
    · rw [heq]
      exact List.mem_append.mpr (Or.inr (List.mem_cons_self _ _))
    · intro y hy
      rw [heq] at hy
      rcases List.mem_append.mp hy with hy | hy
      · exact le_of_lt (h1 y hy)
      · rcases List.mem_cons.mp hy with rfl | hy
        · exact le_refl _
        · exact h2 y hy

/-- Witness for C9 at a concrete input: with years `[2015, 2020]` and
slider value `2016`, the handler yields 2015, which is in the array, is a
minimizer, and is preceded only by strictly-farther years (by none). -/
theorem handleSliderChange_closest_witness :
    (2015 : Int) ∈ [(2015 : Int), 2020] ∧
    (∀ y ∈ [(2015 : Int), 2020],
      ((2015 : Int) - 2016).natAbs ≤ (y - 2016).natAbs) ∧
    ∃ l₁ l₂, [(2015 : Int), 2020] = l₁ ++ 2015 :: l₂ ∧
      ∀ y ∈ l₁, ((2015 : Int) - 2016).natAbs < (y - 2016).natAbs :=
  handleSliderChange_closest [2015, 2020] 2016 2015 (by decide)

/-! ## Population-change statistics (`CombinedChart.tsx`, `PopulationChart.tsx`) -/

/-- `popChange` from `CombinedChart.tsx` lines 67–69: the source reads
`populationData.data[0]` and `populationData.data[length - 1]` without a
guard; both index accesses are embedded as the `Option`-valued `get?`, so
an out-of-bounds access yields `none` instead of the source's
`undefined.population` crash. -/
def popChange (data : List YearlyPopulation) : Option Int :=
  match data.get? 0, data.get? (data.length - 1) with
  | some firstPopYear, some lastPopYear =>
    some (lastPopYear.population - firstPopYear.population)
  | _, _ => none

/-- `change` from `PopulationChart.tsx` lines 26–28: the same unguarded
`data.data[0]` / `data.data[length - 1]` difference. -/
def populationChartChange (data : List YearlyPopulation) : Option Int :=
  match data.get? 0, data.get? (data.length - 1) with
  | some firstYear, some lastYear =>
    some (lastYear.population - firstYear.population)
  | _, _ => none

/-- C10: the change computations of `CombinedChart` and `PopulationChart`
are well-defined exactly on non-empty population series: under the
non-emptiness precondition both index accesses are in bounds (the embedded
lookups return `some`) and so do both change computations, while on the
empty series the out-of-bounds branch is reached and both return `none`. -/
theorem popChange_defined_iff_nonempty (data : List YearlyPopulation) :
    (data ≠ [] →
      (data.get? 0).isSome = true ∧
      (data.get? (data.length - 1)).isSome = true ∧
      (popChange data).isSome = true ∧
      (populationChartChange data).isSome = true) ∧
    popChange [] = none ∧ populationChartChange [] = none := by
  refine ⟨?_, rfl, rfl⟩
  intro hne
  have hlen : 0 < data.length := List.length_pos.mpr hne
  have h0 : (data.get? 0).isSome = true := by
    rw [Option.isSome_iff_ne_none, Ne, List.get?_eq_none]
    omega
  have hl : (data.get? (data.length - 1)).isSome = true := by
    rw [Option.isSome_iff_ne_none, Ne, List.get?_eq_none]
    omega
  obtain ⟨f, hf⟩ := Option.isSome_iff_exists.mp h0
  obtain ⟨l, hlast⟩ := Option.isSome_iff_exists.mp hl
  refine ⟨h0, hl, ?_, ?_⟩
  · rw [popChange, hf, hlast]
    rfl
  · rw [populationChartChange, hf, hlast]
    rfl

/-- Witness for C10 at a concrete input: the singleton series
`[(2015, 100000)]` is non-empty and all four lookups succeed. -/
theorem popChange_defined_iff_nonempty_witness :
    (([⟨2015, 100000⟩] : List YearlyPopulation).get? 0).isSome = true ∧
    (([⟨2015, 100000⟩] : List YearlyPopulation).get?
      (([⟨2015, 100000⟩] : List YearlyPopulation).length - 1)).isSome = true ∧
    (popChange [⟨2015, 100000⟩]).isSome = true ∧
    (populationChartChange [⟨2015, 100000⟩]).isSome = true :=
  (popChange_defined_iff_nonempty [⟨2015, 100000⟩]).1 (by decide)

/-! ## Backend core, modelled from the spec

The repository's backend (ResponseCache, CensusClient, RealEstateClient,
RealEstateAggregator) is not present under `src/`; only its callers (the
frontend hooks) and the `Makefile` refer to it. The definitions below are
modelled from the specification, faithful to its wording. -/

/-- Modelled from the spec: `ResponseCache.put` (§4.2) — the backend cache
code is missing from `src/`. The cache is a keyed store; `put` overwrites
the entry of an existing key and appends a new entry otherwise. The key
type is left polymorphic so that a key can include every request parameter
verbatim, as §4.2 demands. -/
def cachePut {κ π : Type} [DecidableEq κ] (c : List (κ × π)) (key : κ)
    (payload : π) : List (κ × π) :=
  match c with
  | [] => [(key, payload)]
  | (k', p') :: rest =>
    if k' = key then (key, payload) :: rest else (k', p') :: cachePut rest key payload

/-- Modelled from the spec: `ResponseCache.get` (§4.2) — the raw payload
stored under the key, or `none` (NotFound) when the key was never written. -/
def cacheGet {κ π : Type} [DecidableEq κ] (c : List (κ × π)) (key : κ) :
    Option π :=
  match c with
  | [] => none
  | (k', p') :: rest => if k' = key then some p' else cacheGet rest key

/-- Modelled from the spec: a run of the cache starting from the empty
on-disk state and performing the given sequence of `put` operations. -/
def applyPuts {κ π : Type} [DecidableEq κ] (ops : List (κ × π)) :
    List (κ × π) :=
  ops.foldl (fun c op => cachePut c op.1 op.2) []

theorem cacheGet_cachePut_self {κ π : Type} [DecidableEq κ]
    (c : List (κ × π)) (key : κ) (payload : π) :
    cacheGet (cachePut c key payload) key = some payload := by
  induction c with
  | nil => simp [cachePut, cacheGet]
  | cons q rest ih =>
    obtain ⟨k', p'⟩ := q
    by_cases h : k' = key
    · simp [cachePut, cacheGet, h]
    · simp only [cachePut, if_neg h]
      simpa [cacheGet, h] using ih

theorem cacheGet_cachePut_other {κ π : Type} [DecidableEq κ]
    (c : List (κ × π)) (key key' : κ) (payload : π) (hne : key' ≠ key) :
    cacheGet (cachePut c key payload) key' = cacheGet c key' := by
  induction c with
  | nil => simp [cachePut, cacheGet, hne.symm]
  | cons q rest ih =>
    obtain ⟨k', p'⟩ := q
    by_cases h : k' = key
    · subst h
      simp [cachePut, cacheGet, hne.symm]
    · simp only [cachePut, if_neg h]
      by_cases h2 : k' = key'
      · simp [cacheGet, h2]
      · simp only [cacheGet, if_neg h2]
        exact ih

theorem cacheGet_applyPuts_not_written {κ π : Type} [DecidableEq κ]
    (ops : List (κ × π)) (key : κ) (hk : key ∉ ops.map Prod.fst) :
    cacheGet (applyPuts ops) key = none := by
  suffices h : ∀ (c : List (κ × π)), cacheGet c key = none →
      cacheGet (ops.foldl (fun c op => cachePut c op.1 op.2) c) key = none by
    exact h [] rfl
  induction ops with
  | nil => intro c hc; simpa using hc
  | cons op rest ih =>
    intro c hc
    simp only [List.map_cons, List.mem_cons] at hk
    push_neg at hk
    rw [List.foldl_cons]
    refine ih hk.2 _ ?_
    rw [cacheGet_cachePut_other c op.1 key op.2 hk.1]
    exact hc

/-- C7: a `put` followed by a `get` on the same key returns exactly the
stored payload, and a `get` on a key never written in a run of `put`
operations returns NotFound (`none`). -/
theorem responseCache_roundtrip {κ π : Type} [DecidableEq κ]
    (c : List (κ × π)) (key : κ) (payload : π)
    (ops : List (κ × π)) (key' : κ) (hk' : key' ∉ ops.map Prod.fst) :
    cacheGet (cachePut c key payload) key = some payload ∧
    cacheGet (applyPuts ops) key' = none :=
  ⟨cacheGet_cachePut_self c key payload,
   cacheGet_applyPuts_not_written ops key' hk'⟩

/-- Witness for C7 at concrete inputs: storing payload `[7]` under key `1`
in a cache already holding key `0` and reading it back, and reading the
never-written key `9` after the run `put 0 [1]; put 2 [3]`. -/
theorem responseCache_roundtrip_witness :
    cacheGet (cachePut [((0 : Nat), [(1 : Nat)])] 1 [7]) 1 = some [7] ∧
    cacheGet (applyPuts [((0 : Nat), [(1 : Nat)]), (2, [3])]) 9 = none :=
  responseCache_roundtrip [(0, [1])] 1 [7] [(0, [1]), (2, [3])] 9 (by decide)

/-- Modelled from the spec: `RealEstateTransaction` (§3) — the backend
record type is missing from `src/`. Only the fields the aggregation
consults are modelled: the optional unit price, the year carried by the
optional `tradeDate`, the optional provider-supplied year field, and the
optional trade price; all are optional because the upstream source omits
them inconsistently. -/
structure RETransaction where
  unitPrice : Option Nat := none
  tradeDateYear : Option Nat := none
  yearField : Option Nat := none
  tradePrice : Option Nat := none
  deriving Repr, DecidableEq

/-- Modelled from the spec: the result of one `fetchTransactions` run —
the concatenated transactions, the number of network requests performed
(the spec's fetch counter), and the cache after the run. -/
structure ReFetchResult where
  transactions : List RETransaction
  fetchCalls : Nat
  cache : List ((List Char × Nat) × List RETransaction)
  deriving Repr, DecidableEq

/-- Modelled from the spec: `RealEstateClient.fetchTransactions` (§4.4) —
the backend client is missing from `src/`. For each year in
`[yearFrom, yearTo]` it checks the cache under the (code, year) key; on a
miss it issues one upstream request (counted in `fetchCalls`) and caches
the raw per-year response even when empty; per-year results are
concatenated in ascending year order. If the real-estate key is absent it
returns the empty sequence immediately, without attempting network I/O. -/
def fetchTransactions (realEstateKeyPresent : Bool)
    (upstream : List Char → Nat → List RETransaction)
    (cache : List ((List Char × Nat) × List RETransaction))
    (code : List Char) (yearFrom yearTo : Nat) : ReFetchResult :=
  if realEstateKeyPresent = false then
    { transactions := [], fetchCalls := 0, cache := cache }
  else
    ((List.range (yearTo + 1 - yearFrom)).map (· + yearFrom)).foldl
      (fun acc year =>
        match cacheGet acc.cache (code, year) with
        | some payload =>
          { acc with transactions := acc.transactions ++ payload }
        | none =>
          let fresh := upstream code year
          { transactions := acc.transactions ++ fresh,
            fetchCalls := acc.fetchCalls + 1,
            cache := cachePut acc.cache (code, year) fresh })
      { transactions := [], fetchCalls := 0, cache := cache }

/-- C5: with the real-estate key absent, `fetchTransactions` returns the
empty sequence for every municipality code and year range, performs no
network I/O (the fetch counter stays at zero) and leaves the cache
untouched; the operation is total, so no error is raised. -/
theorem fetchTransactions_no_key
    (upstream : List Char → Nat → List RETransaction)
    (cache : List ((List Char × Nat) × List RETransaction))
    (code : List Char) (yearFrom yearTo : Nat) :
    fetchTransactions false upstream cache code yearFrom yearTo =
      { transactions := [], fetchCalls := 0, cache := cache } := rfl

/-! ### CensusClient -/

/-- Modelled from the spec: a raw table row of the census provider before
normalization (§4.3); its municipality code may be missing. -/
structure RawPopRow where
  code : Option (List Char)
  prefectureName : List Char
  municipalityName : List Char
  year : Nat
  population : Int
  deriving Repr, DecidableEq

/-- `PopulationRecord` (§3): one normalized record per (code, year). -/
structure PopulationRecord where
  code : List Char
  prefectureName : List Char
  municipalityName : List Char
  year : Nat
  population : Int
  deriving Repr, DecidableEq

/-- The fixed enumerable set of census years; the repository's `Makefile`
lists them for `fetch-data`: 2000, 2005, 2010, 2015, 2020. -/
def supportedYears : List Nat := [2000, 2005, 2010, 2015, 2020]

/-- The bounded retry policy's attempt count (§7: small fixed count, 3). -/
def maxAttempts : Nat := 3

/-- Modelled from the spec: the bounded retry of the live census fetch —
`upstream i` is the outcome of attempt `i`; the first success within
`maxAttempts` attempts wins, otherwise the retry is exhausted (`none`). -/
def retryFetch (upstream : Nat → Option (List RawPopRow)) :
    Option (List RawPopRow) :=
  (List.range maxAttempts).foldl
    (fun acc i =>
      match acc with
      | some rows => some rows
      | none => upstream i)
    none

/-- Modelled from the spec: normalization of one raw census row (§4.3) —
rows with a missing code are discarded, population is validated ≥ 0. -/
def normalizeRow (r : RawPopRow) : Option PopulationRecord :=
  match r.code with
  | none => none
  | some c =>
    if r.population < 0 then none
    else some ⟨c, r.prefectureName, r.municipalityName, r.year, r.population⟩

/-- `InvalidYear` (§7): the only hard error `fetchPopulation` surfaces. -/
inductive CensusError where
  | invalidYear
  deriving Repr, DecidableEq

/-- Modelled from the spec: the result of `fetchPopulation` — the records
plus the degraded-mode signal surfaced to the caller. -/
structure PopFetchResult where
  records : List PopulationRecord
  degraded : Bool
  deriving Repr, DecidableEq

/-- Modelled from the spec: `CensusClient.fetchPopulation` (§4.3) — the
backend client is missing from `src/`. A non-enumerated year is a caller
error (`InvalidYear`). If the census key is absent, or the live fetch
fails after the retry policy is exhausted, the bundled static dataset
filtered to the year is returned with the degraded-mode flag set — not a
hard error. A successful live fetch is normalized row by row. -/
def fetchPopulation (censusKeyPresent : Bool)
    (upstream : Nat → Option (List RawPopRow))
    (staticData : List PopulationRecord) (year : Nat) :
    Except CensusError PopFetchResult :=
  if year ∉ supportedYears then .error .invalidYear
  else if censusKeyPresent = false then
    .ok { records := staticData.filter (fun r => r.year == year),
          degraded := true }
  else
    match retryFetch upstream with
    | some rows =>
      .ok { records := rows.filterMap normalizeRow, degraded := false }
    | none =>
      .ok { records := staticData.filter (fun r => r.year == year),
            degraded := true }

theorem retryFetch_eq_none (upstream : Nat → Option (List RawPopRow))
    (h : ∀ i, i < maxAttempts → upstream i = none) :
    retryFetch upstream = none := by
  have hr : List.range maxAttempts = [0, 1, 2] := rfl
  rw [retryFetch, hr]
  simp only [List.foldl_cons, List.foldl_nil]
  rw [h 0 (by decide), h 1 (by decide), h 2 (by decide)]

/-- C6: for every supported year, if the census key is absent or the live
fetch fails on every attempt of the bounded retry policy, then
`fetchPopulation` returns exactly the bundled static dataset filtered to
the year together with the degraded-mode flag — an `ok` result, not a
hard error. -/
theorem fetchPopulation_degraded_fallback (censusKeyPresent : Bool)
    (upstream : Nat → Option (List RawPopRow))
    (staticData : List PopulationRecord) (year : Nat)
    (hy : year ∈ supportedYears)
    (hfail : censusKeyPresent = false ∨
      ∀ i, i < maxAttempts → upstream i = none) :
    fetchPopulation censusKeyPresent upstream staticData year =
      .ok { records := staticData.filter (fun r => r.year == year),
            degraded := true } := by
  rw [fetchPopulation, if_neg (by simpa using hy)]
  rcases hfail with hkey | hnone
  · rw [hkey, if_pos rfl]
  · by_cases hkey : censusKeyPresent = false
    · rw [hkey, if_pos rfl]
    · rw [if_neg hkey, retryFetch_eq_none upstream hnone]

/-- Witness for C6 at a concrete input: the census key is present but
every attempt fails, for supported year 2020 and a one-record static
dataset — the result is the static record with the degraded flag. -/
theorem fetchPopulation_degraded_fallback_witness :
    fetchPopulation true (fun _ => none)
      [⟨[Char.ofNat 48], [], [], 2020, 100⟩] 2020 =
    .ok { records := [⟨[Char.ofNat 48], [], [], 2020, 100⟩],
          degraded := true } := by
  rw [fetchPopulation_degraded_fallback true (fun _ => none)
    [⟨[Char.ofNat 48], [], [], 2020, 100⟩] 2020 (by decide)
    (Or.inr fun i _ => rfl)]
  rfl

/-! ### RealEstateAggregator -/

/-- Modelled from the spec: the year a transaction is grouped under
(§4.5) — derived from `tradeDate` if present, else the provider-supplied
year field; `none` excludes it from every summary. -/
def txYear (t : RETransaction) : Option Nat :=
  match t.tradeDateYear with
  | some y => some y
  | none => t.yearField

/-- The transactions grouped under year `y` (§4.5). -/
def yearGroup (transactions : List RETransaction) (y : Nat) :
    List RETransaction :=
  transactions.filter (fun t => txYear t == some y)

/-- Round-half-to-even division of `s` by `n` (§4.5's averaging rule). -/
def roundHalfEven (s n : Nat) : Nat :=
  let q := s / n
  let r := s % n
  if 2 * r < n then q
  else if n < 2 * r then q + 1
  else if q % 2 = 0 then q else q + 1

/-- The minimum of a list of prices, `none` when the list is empty. -/
def listMin : List Nat → Option Nat
  | [] => none
  | a :: t =>
    match listMin t with
    | none => some a
    | some b => some (Nat.min a b)

/-- The maximum of a list of prices, `none` when the list is empty. -/
def listMax : List Nat → Option Nat
  | [] => none
  | a :: t =>
    match listMax t with
    | none => some a
    | some b => some (Nat.max a b)

/-- `RealEstateYearlySummary` (§3): the derived yearly aggregate; the
three price fields are optional. -/
structure RealEstateYearlySummary where
  code : List Char
  year : Nat
  transactionCount : Nat
  avgUnitPrice : Option Nat
  minUnitPrice : Option Nat
  maxUnitPrice : Option Nat
  deriving Repr, DecidableEq

/-- Modelled from the spec: the summary of one year group (§4.5) — the
count includes every grouped transaction regardless of price completeness;
the three price statistics range over the transactions whose `unitPrice`
is present and are absent when that subset is empty. -/
def mkSummary (code : List Char) (transactions : List RETransaction)
    (y : Nat) : RealEstateYearlySummary :=
  let group := yearGroup transactions y
  let prices := group.filterMap RETransaction.unitPrice
  { code := code
    year := y
    transactionCount := group.length
    avgUnitPrice :=
      match prices with
      | [] => none
      | _ :: _ => some (roundHalfEven prices.sum prices.length)
    minUnitPrice := listMin prices
    maxUnitPrice := listMax prices }

/-- Modelled from the spec: `RealEstateAggregator.summarize` (§4.5) — the
backend aggregator is missing from `src/`; only its output type
(`RealEstateYearlyData` in `App.tsx`) is declared there. One summary per
year present in the input, years ascending. -/
def summarize (transactions : List RETransaction) (code : List Char) :
    List RealEstateYearlySummary :=
  (((transactions.filterMap txYear).insertionSort (· ≤ ·)).dedup).map
    (mkSummary code transactions)

theorem mem_yearGroup {transactions : List RETransaction} {y : Nat}
    {t : RETransaction} :
    t ∈ yearGroup transactions y ↔ t ∈ transactions ∧ txYear t = some y := by
  rw [yearGroup, List.mem_filter]
  simp

theorem mem_summarize_iff {transactions : List RETransaction}
    {code : List Char} {s : RealEstateYearlySummary} :
    s ∈ summarize transactions code ↔
      ∃ y, (∃ t ∈ transactions, txYear t = some y) ∧
        s = mkSummary code transactions y := by
  rw [summarize, List.mem_map]
  constructor
  · rintro ⟨y, hy, rfl⟩
    rw [List.mem_dedup, (List.perm_insertionSort _ _).mem_iff,
      List.mem_filterMap] at hy
    exact ⟨y, hy, rfl⟩
  · rintro ⟨y, hy, rfl⟩
    refine ⟨y, ?_, rfl⟩
    rw [List.mem_dedup, (List.perm_insertionSort _ _).mem_iff,
      List.mem_filterMap]
    exact hy

theorem listMin_eq_none_iff (l : List Nat) : listMin l = none ↔ l = [] := by
  cases l with
  | nil => simp [listMin]
  | cons a t =>
    simp only [listMin]
    cases listMin t <;> simp

theorem listMax_eq_none_iff (l : List Nat) : listMax l = none ↔ l = [] := by
  cases l with
  | nil => simp [listMax]
  | cons a t =>
    simp only [listMax]
    cases listMax t <;> simp

/-- C3: every summary `summarize` produces has `transactionCount` equal to
the size of its year group (hence positive), and each optional price field
is absent exactly when the count is zero or every transaction in the year
group lacks `unitPrice`; in particular a year whose transactions all lack
`unitPrice` still appears, with positive count and all three price fields
absent. -/
theorem summarize_price_fields (transactions : List RETransaction)
    (code : List Char) :
    (∀ s ∈ summarize transactions code,
      s.transactionCount = (yearGroup transactions s.year).length ∧
      0 < s.transactionCount ∧
      (s.avgUnitPrice = none ↔ (s.transactionCount = 0 ∨
        ∀ t ∈ yearGroup transactions s.year, t.unitPrice = none)) ∧
      (s.minUnitPrice = none ↔ (s.transactionCount = 0 ∨
        ∀ t ∈ yearGroup transactions s.year, t.unitPrice = none)) ∧
      (s.maxUnitPrice = none ↔ (s.transactionCount = 0 ∨
        ∀ t ∈ yearGroup transactions s.year, t.unitPrice = none))) ∧
    (∀ y : Nat, (∃ t ∈ transactions, txYear t = some y) →
      (∀ t ∈ yearGroup transactions y, t.unitPrice = none) →
      ∃ s ∈ summarize transactions code, s.year = y ∧
        0 < s.transactionCount ∧ s.avgUnitPrice = none ∧
        s.minUnitPrice = none ∧ s.maxUnitPrice = none) := by
  have hcount : ∀ y, (∃ t ∈ transactions, txYear t = some y) →
      0 < (yearGroup transactions y).length := by
    intro y ⟨t, ht, hty⟩
    exact List.length_pos.mpr
      (List.ne_nil_of_mem (mem_yearGroup.mpr ⟨ht, hty⟩))
  have hprices : ∀ y,
      ((yearGroup transactions y).filterMap RETransaction.unitPrice = [] ↔
        ∀ t ∈ yearGroup transactions y, t.unitPrice = none) :=
    fun y => List.filterMap_eq_nil_iff
  have hfields : ∀ y, (∃ t ∈ transactions, txYear t = some y) →
      (mkSummary code transactions y).transactionCount =
        (yearGroup transactions y).length ∧
      0 < (mkSummary code transactions y).transactionCount ∧
      ((mkSummary code transactions y).avgUnitPrice = none ↔
        ((yearGroup transactions y).filterMap RETransaction.unitPrice = [])) ∧
      ((mkSummary code transactions y).minUnitPrice = none ↔
        ((yearGroup transactions y).filterMap RETransaction.unitPrice = [])) ∧
      ((mkSummary code transactions y).maxUnitPrice = none ↔
        ((yearGroup transactions y).filterMap RETransaction.unitPrice = [])) := by
    intro y hy
    refine ⟨rfl, hcount y hy, ?_, listMin_eq_none_iff _, listMax_eq_none_iff _⟩
    show (match (yearGroup transactions y).filterMap RETransaction.unitPrice with
      | [] => none
      | _ :: _ => some (roundHalfEven
          ((yearGroup transactions y).filterMap RETransaction.unitPrice).sum
          ((yearGroup transactions y).filterMap RETransaction.unitPrice).length))
      = none ↔
      (yearGroup transactions y).filterMap RETransaction.unitPrice = []
    cases (yearGroup transactions y).filterMap RETransaction.unitPrice <;> simp
  constructor
  · intro s hs
    obtain ⟨y, hy, rfl⟩ := mem_summarize_iff.mp hs
    have hyear : (mkSummary code transactions y).year = y := rfl
    obtain ⟨hc, hpos, havg, hmin, hmax⟩ := hfields y hy
    rw [hyear]
    have hz : ¬(mkSummary code transactions y).transactionCount = 0 :=
      Nat.pos_iff_ne_zero.mp hpos
    refine ⟨hc, hpos, ?_, ?_, ?_⟩
    · rw [havg, hprices y]
      exact ⟨fun h => Or.inr h, fun h => h.resolve_left hz⟩
    · rw [hmin, hprices y]
      exact ⟨fun h => Or.inr h, fun h => h.resolve_left hz⟩
    · rw [hmax, hprices y]
      exact ⟨fun h => Or.inr h, fun h => h.resolve_left hz⟩
  · intro y hy hall
    refine ⟨mkSummary code transactions y, mem_summarize_iff.mpr ⟨y, hy, rfl⟩,
      rfl, ?_, ?_, ?_, ?_⟩
    · exact (hfields y hy).2.1
    · exact ((hfields y hy).2.2.1).mpr ((hprices y).mpr hall)
    · exact ((hfields y hy).2.2.2.1).mpr ((hprices y).mpr hall)
    · exact ((hfields y hy).2.2.2.2).mpr ((hprices y).mpr hall)

/-- Witness for C3 at a concrete input: a single 2015 transaction with no
`unitPrice` yields a summary for 2015 with count 1 and all three price
fields absent. -/
theorem summarize_price_fields_witness :
    ∃ s ∈ summarize [{ tradeDateYear := some 2015 }] [],
      s.year = 2015 ∧ 0 < s.transactionCount ∧ s.avgUnitPrice = none ∧
      s.minUnitPrice = none ∧ s.maxUnitPrice = none :=
  (summarize_price_fields [{ tradeDateYear := some 2015 }] []).2 2015
    ⟨{ tradeDateYear := some 2015 }, by decide⟩ (by decide)

end PopulationData
